import Mathlib

/-!
# Verification of the Infrantery backup/restore core

Shallow embedding of the project backup & restore engine
(`internal/core/service/backup_service.go`, `pkg/crypto/crypto.go`,
`internal/core/domain/backup.go`) and proofs of the specified properties.

Bytes are modelled as `List Nat`; external cryptographic primitives
(HMAC-SHA256, Argon2id, AES-256-GCM), the compression codec and the JSON
codec are parameters of a `CryptoModel`, constrained only by the library
contracts the Go code relies on (authenticated-encryption round-trip,
compression round-trip, JSON round-trip up to timestamp normalization).
-/

namespace Infrantery

/-! ## Domain data model (`internal/core/domain/backup.go`) -/

/-- Go `time.Time`, modelled as an opaque instant. -/
structure GoTime where
  unixNano : Int
deriving DecidableEq

/-- Go `domain.MemberKeyringBackup`. -/
structure MemberKeyringBackup where
  epoch : String
  secretPassphrase : String
  secretSigningPrivateKey : String
  signingPublicKey : String
deriving DecidableEq

/-- Go `domain.ProjectBackup`. -/
structure ProjectBackup where
  id : String
  name : String
  description : String
  keyEpoch : String
  createdAt : String
  updatedAt : String
deriving DecidableEq

/-- Go `domain.MemberBackup`. -/
structure MemberBackup where
  publicKey : String
  encryptedPrivateKey : String
  keyrings : List MemberKeyringBackup
deriving DecidableEq

/-- Go `domain.DiagramBackup`. -/
structure DiagramBackup where
  id : String
  parentDiagramID : Option String
  diagramName : String
  description : String
  encryptedData : Option String
  encryptedDataSignature : String
  createdAt : String
  updatedAt : String
deriving DecidableEq

/-- Go `domain.NodeBackup`. -/
structure NodeBackup where
  id : String
  diagramID : String
  encryptedReadme : String
  encryptedReadmeSignature : String
  encryptedDict : String
  encryptedDictSignature : String
  createdAt : String
  updatedAt : String
deriving DecidableEq

/-- Go `domain.VaultBackup`. -/
structure VaultBackup where
  id : String
  nodeID : String
  label : String
  type' : String
  encryptedValue : Option String
  encryptedValueSignature : Option String
  createdAt : String
  updatedAt : String
deriving DecidableEq

/-- Go `domain.NoteBackup`. -/
structure NoteBackup where
  id : String
  parentID : Option String
  type' : String
  fileName : String
  icon : String
  encryptedContent : Option String
  encryptedContentSignature : Option String
  createdAt : String
  updatedAt : String
deriving DecidableEq

/-- Go `domain.BackupPayload`: the top-level structure serialized to JSON. -/
structure BackupPayload where
  version : Int
  createdAt : GoTime
  project : ProjectBackup
  member : MemberBackup
  diagrams : List DiagramBackup
  nodes : List NodeBackup
  vaults : List VaultBackup
  notes : List NoteBackup
deriving DecidableEq

/-! ## Constants -/

/-- UTF-8 bytes of an (ASCII) Go string, `[]byte(s)`. -/
def strBytes (s : String) : List Nat := s.toList.map Char.toNat

/-- Go `domain.BackupVersion = 1`. -/
def BackupVersion : Nat := 1

/-- Go `domain.BackupMagic = []byte("INFBK")`. -/
def BackupMagic : List Nat := strBytes ("INFBK")

/-- Go `domain.BackupPepper`: the hardcoded application secret mixed into key
derivation via HMAC. -/
def BackupPepper : List Nat :=
  strBytes ("infrantery:backup:v1:a9f2c8e1-4d7b-4f3a-b5e6-8c1d9e0f7a2b")

/-- Go `crypto.NonceSize = 12`. -/
def NonceSize : Nat := 12

/-- Go `crypto.SaltSize = 32`. -/
def SaltSize : Nat := 32

/-- Go `service.MaxBackupSize = 100 * 1024 * 1024` (100 MiB). -/
def MaxBackupSize : Nat := 100 * 1024 * 1024

/-- Go `service.archiveHeaderSize = magic(5) + version(1) + nonce(12) + salt(32)`. -/
def archiveHeaderSize : Nat := 5 + 1 + NonceSize + SaltSize

/-! ## Argon2 parameter records -/

/-- Go `crypto.Argon2Params`. -/
structure Argon2Params where
  memory : Nat
  iterations : Nat
  parallelism : Nat
  keyLength : Nat
deriving DecidableEq

/-- Go `crypto.DefaultArgon2Params`. -/
def DefaultArgon2Params : Argon2Params :=
  { memory := 64 * 1024, iterations := 3, parallelism := 2, keyLength := 32 }

/-- Go `service.Argon2Params` (the service-level record). -/
structure ServiceArgon2Params where
  memory : Nat
  iterations : Nat
  parallelism : Nat
  saltLength : Nat
  keyLength : Nat
deriving DecidableEq

/-- Go `BackupService.toCryptoParams`: convert the service-level Argon2 params to
the crypto package format, always using 32-byte (AES-256) key length. -/
def toCryptoParams (sp : ServiceArgon2Params) : Argon2Params :=
  { memory := sp.memory
    iterations := sp.iterations
    parallelism := sp.parallelism
    keyLength := 32 }

/-! ## Model of the external cryptographic / codec primitives

The Go code calls `crypto/hmac` + `crypto/sha256`, `golang.org/x/crypto/argon2`,
`crypto/aes` + `crypto/cipher` (GCM), the compression codec and
`encoding/json`. These are external libraries, so they enter the embedding as
the fields of a `CryptoModel`; the contracts the Go code relies on are stated
as separate propositions below and assumed only where a claim needs them. -/

structure CryptoModel where
  /-- Go `hmac.New(sha256.New, key)` + `Write` + `Sum`: `hmacSHA256 key message`. -/
  hmacSHA256 : List Nat → List Nat → List Nat
  /-- Go `argon2.IDKey password salt params`. -/
  argon2id : List Nat → List Nat → Argon2Params → List Nat
  /-- Go `gcm.Seal nil nonce plaintext nil`: `encrypt key nonce plaintext`. -/
  encrypt : List Nat → List Nat → List Nat → List Nat
  /-- Go `gcm.Open nil nonce ciphertext nil`: `decrypt ciphertext key nonce`,
  `none` on authentication failure. -/
  decrypt : List Nat → List Nat → List Nat → Option (List Nat)
  /-- Go `compression.Compress`. -/
  compress : List Nat → List Nat
  /-- Go `compression.Decompress`, `none` on malformed input. -/
  decompress : List Nat → Option (List Nat)
  /-- Go `json.Marshal` of a `BackupPayload`. -/
  jsonEncode : BackupPayload → List Nat
  /-- Go `json.Unmarshal` into a `BackupPayload`, `none` on malformed input. -/
  jsonDecode : List Nat → Option BackupPayload
  /-- The normalization `time.Time` undergoes on a marshal/unmarshal
  round-trip (RFC3339Nano formatting). -/
  normTime : GoTime → GoTime

/-- The payload after the timestamp normalization a JSON round-trip applies. -/
def normalizeCreatedAt (M : CryptoModel) (p : BackupPayload) : BackupPayload :=
  { p with createdAt := M.normTime p.createdAt }

/-- AES-GCM contract: opening a sealed message with the same key and nonce
returns the plaintext. -/
def GCMRoundTrip (M : CryptoModel) : Prop :=
  ∀ key nonce pt, M.decrypt (M.encrypt key nonce pt) key nonce = some pt

/-- Compression contract: decompressing compressed data returns the input. -/
def CompressRoundTrip (M : CryptoModel) : Prop :=
  ∀ b, M.decompress (M.compress b) = some b

/-- JSON contract: unmarshaling marshaled data returns the payload, up to
timestamp normalization. -/
def JsonRoundTrip (M : CryptoModel) : Prop :=
  ∀ p, M.jsonDecode (M.jsonEncode p) = some (normalizeCreatedAt M p)

/-- Argon2 contract: the derived key has exactly the requested length. -/
def Argon2KeyLen (M : CryptoModel) : Prop :=
  ∀ pw salt ps, (M.argon2id pw salt ps).length = ps.keyLength

/-! ## Key derivation (`crypto.DeriveBackupKey`) -/

/-- Go `crypto.DeriveBackupKey`: HMAC-SHA256(pepper, password) fed into Argon2id;
a `none` parameter set falls back to `DefaultArgon2Params` (the Go `nil`
check). -/
def DeriveBackupKey (M : CryptoModel) (password : String)
    (pepper salt : List Nat) (params : Option Argon2Params) : List Nat :=
  let pepperedPassword := M.hmacSHA256 pepper (strBytes password)
  M.argon2id pepperedPassword salt (params.getD DefaultArgon2Params)

/-! ## Archive framing (`BackupService.buildArchive` / `parseArchive`) -/

/-- Error taxonomy of the backup service. The first four correspond to
`ErrBackupTooLarge`, `ErrBackupInvalidFormat`, `ErrBackupVersionMismatch`,
`ErrBackupDecryptionFailed`; the last two are the wrapped generic errors of
the decompress and unmarshal steps. -/
inductive BackupError where
  | tooLarge
  | invalidFormat
  | versionMismatch
  | decryptionFailed
  | decompressFailed
  | unmarshalFailed
deriving DecidableEq

/-- Nonce region of an archive: `data[6:18]`. -/
def archiveNonce (data : List Nat) : List Nat := (data.drop 6).take NonceSize

/-- Salt region of an archive: `data[18:50]`. -/
def archiveSalt (data : List Nat) : List Nat :=
  (data.drop (6 + NonceSize)).take SaltSize

/-- Ciphertext region of an archive: `data[50:]`. -/
def archiveCiphertext (data : List Nat) : List Nat :=
  data.drop archiveHeaderSize

/-- Go `BackupService.buildArchive`, with the two random draws (the 32-byte salt
and the 12-byte GCM nonce) made explicit arguments:
serialize → compress → derive key → encrypt → frame. -/
def buildArchive (M : CryptoModel) (sp : ServiceArgon2Params)
    (payload : BackupPayload) (password : String)
    (salt nonce : List Nat) : List Nat :=
  let jsonData := M.jsonEncode payload
  let compressed := M.compress jsonData
  let key := DeriveBackupKey M password BackupPepper salt (some (toCryptoParams sp))
  let ciphertext := M.encrypt key nonce compressed
  BackupMagic ++ [BackupVersion] ++ nonce ++ salt ++ ciphertext

/-- Steps 3–6 of `BackupService.parseArchive`: extract nonce/salt →
derive key → decrypt → decompress → unmarshal. -/
def parseBody (M : CryptoModel) (sp : ServiceArgon2Params)
    (data : List Nat) (password : String) :
    Except BackupError BackupPayload :=
  let key := DeriveBackupKey M password BackupPepper (archiveSalt data)
    (some (toCryptoParams sp))
  match M.decrypt (archiveCiphertext data) key (archiveNonce data) with
  | none => .error .decryptionFailed
  | some compressed =>
    match M.decompress compressed with
    | none => .error .decompressFailed
    | some jsonData =>
      match M.jsonDecode jsonData with
      | none => .error .unmarshalFailed
      | some payload => .ok payload

/-- Go `BackupService.parseArchive`:
validate length → validate magic → validate version → `parseBody`. -/
def parseArchive (M : CryptoModel) (sp : ServiceArgon2Params)
    (data : List Nat) (password : String) :
    Except BackupError BackupPayload :=
  if data.length < archiveHeaderSize then .error .invalidFormat
  else if data.take 5 ≠ BackupMagic then .error .invalidFormat
  else if data.getD 5 0 ≠ BackupVersion then .error .versionMismatch
  else parseBody M sp data password

/-- The size-guarded front end of `BackupService.RestoreBackup`:
`io.ReadAll(io.LimitReader(r, MaxBackupSize+1))` reads at most
`MaxBackupSize + 1` bytes of the stream; a result longer than `MaxBackupSize`
fails `ErrBackupTooLarge`, otherwise the data is parsed. -/
def readBackupData (stream : List Nat) : List Nat :=
  stream.take (MaxBackupSize + 1)

def restoreBackupParse (M : CryptoModel) (sp : ServiceArgon2Params)
    (stream : List Nat) (password : String) :
    Except BackupError BackupPayload :=
  let data := readBackupData stream
  if data.length > MaxBackupSize then .error .tooLarge
  else parseArchive M sp data password

/-! ## Filename sanitization (`sanitizeFilename`) -/

/-- One iteration of the `for _, c := range name` loop of `sanitizeFilename`. -/
def sanitizeStep (result : List Char) (c : Char) : List Char :=
  if (('a' ≤ c ∧ c ≤ 'z') ∨ ('A' ≤ c ∧ c ≤ 'Z') ∨
      ('0' ≤ c ∧ c ≤ '9') ∨ c = '-' ∨ c = '_') then
    result ++ [c]
  else if c = ' ' then
    result ++ ['_']
  else
    result

/-- Go `service.sanitizeFilename`. -/
def sanitizeFilename (name : String) : String :=
  let result := name.toList.foldl sanitizeStep []
  if result = [] then "backup" else String.mk result

/-- Modelled from the spec's words, for comparison with `sanitizeFilename`:
keep ASCII letters, digits, hyphen and underscore; map each space to an
underscore; drop every other character. -/
def sanitizeRuneSpec (c : Char) : Option Char :=
  if c.isAlpha || c.isDigit || c = '-' || c = '_' then some c
  else if c = ' ' then some '_'
  else none

/-- Modelled from the spec's words, for comparison with `sanitizeFilename`:
the per-character map applied to the whole name, with an empty result
replaced by the literal string `"backup"`. -/
def sanitizeFilenameSpec (name : String) : String :=
  let result := name.toList.filterMap sanitizeRuneSpec
  if result = [] then "backup" else String.mk result

/-! ## Graph restorer (`BackupService.insertRestoredData`)

`primitive.ObjectID` is modelled by its hex string (real object ids are in
bijection with their 24-character hex representation); `primitive.NewObjectID`
becomes an explicit generator `gen : Nat → ObjectID` consumed in call order,
which also supplies the ids the storage layer assigns to vaults on insert.
The Go `map[string]primitive.ObjectID` is modelled as
`String → Option ObjectID`; indexing without an `ok`-check (`idMap[k]`)
yields the zero value `NilObjectID` when the key is absent, exactly as in Go. -/

structure ObjectID where
  hex : String
deriving DecidableEq

/-- Go `primitive.NilObjectID` (the all-zero object id, Go's zero value). -/
def NilObjectID : ObjectID := { hex := "000000000000000000000000" }

abbrev IdMap := String → Option ObjectID

def emptyIdMap : IdMap := fun _ => none

/-- Go `idMap[k] = v` (later assignment shadows earlier ones, as for a Go map). -/
def idMapInsert (m : IdMap) (k : String) (v : ObjectID) : IdMap :=
  fun x => if x = k then some v else m x

/-- Go `idMap[k]` without an `ok`-check: Go's zero-value semantics. -/
def mapGetD (m : IdMap) (k : String) : ObjectID := (m k).getD NilObjectID

/-- A pre-generation loop `for _, e := range es { idMap[e.ID] = NewObjectID() }`,
consuming generator indices `base, base+1, …` in order. -/
def bindAll (m : IdMap) (ids : List String) (gen : Nat → ObjectID)
    (base : Nat) : IdMap :=
  match ids with
  | [] => m
  | x :: xs => bindAll (idMapInsert m x (gen base)) xs gen (base + 1)

/-- Go `RolePresets["owner"]`. -/
def ownerPermissions : List String :=
  ["view_diagram", "edit_diagram", "view_note", "edit_note",
   "view_vault", "edit_vault", "manage_project"]

/-- The `domain.Project` record created by the restorer. -/
structure RestoredProject where
  id : ObjectID
  name : String
  description : String
  keyEpoch : String
deriving DecidableEq

/-- The `domain.ProjectMember` record created by the restorer. -/
structure RestoredMember where
  projectID : ObjectID
  userID : ObjectID
  role : String
  permissions : List String
  publicKey : String
  encryptedPrivateKey : String
  keyrings : List MemberKeyringBackup
deriving DecidableEq

/-- A `domain.Diagram` record created by the restorer. -/
structure RestoredDiagram where
  id : ObjectID
  projectID : ObjectID
  parentDiagramID : Option ObjectID
  diagramName : String
  description : String
  encryptedData : Option String
  encryptedDataSignature : String
deriving DecidableEq

/-- A `domain.Node` record created by the restorer. -/
structure RestoredNode where
  id : ObjectID
  diagramID : ObjectID
  encryptedReadme : String
  encryptedReadmeSignature : String
  encryptedDict : String
  encryptedDictSignature : String
deriving DecidableEq

/-- A `domain.NodeVault` record created by the restorer (its id is assigned
by the storage layer on insert). -/
structure RestoredVault where
  id : ObjectID
  projectID : ObjectID
  nodeID : ObjectID
  label : String
  type' : String
  encryptedValue : Option String
  encryptedValueSignature : Option String
deriving DecidableEq

/-- A `domain.Note` record created by the restorer. -/
structure RestoredNote where
  id : ObjectID
  projectID : ObjectID
  parentID : Option ObjectID
  type' : String
  fileName : String
  icon : String
  encryptedContent : Option String
  encryptedContentSignature : Option String
deriving DecidableEq

/-- The restorer's id map after step 1 (`idMap[payload.Project.ID] = newProjectID`,
with `newProjectID = gen 0`). -/
def idMapProject (gen : Nat → ObjectID) (p : BackupPayload) : IdMap :=
  idMapInsert emptyIdMap p.project.id (gen 0)

/-- The id map after the diagram pre-generation loop (step 3, first pass). -/
def idMapDiagrams (gen : Nat → ObjectID) (p : BackupPayload) : IdMap :=
  bindAll (idMapProject gen p) (p.diagrams.map DiagramBackup.id) gen 1

/-- The id map after the node pre-generation loop (step 4, first pass). -/
def idMapNodes (gen : Nat → ObjectID) (p : BackupPayload) : IdMap :=
  bindAll (idMapDiagrams gen p) (p.nodes.map NodeBackup.id) gen
    (1 + p.diagrams.length)

/-- The id map after the note pre-generation loop (step 6, first pass);
the vault inserts in between consumed `p.vaults.length` generator indices. -/
def idMapNotes (gen : Nat → ObjectID) (p : BackupPayload) : IdMap :=
  bindAll (idMapNodes gen p) (p.notes.map NoteBackup.id) gen
    (1 + p.diagrams.length + p.nodes.length + p.vaults.length)

/-- One diagram insert of step 3 (second pass): the parent pointer is set only
when the looked-up id exists in the map (`if newParent, ok := idMap[…]; ok`). -/
def restoreDiagram (newProjectID : ObjectID) (m : IdMap)
    (d : DiagramBackup) : RestoredDiagram :=
  { id := mapGetD m d.id
    projectID := newProjectID
    parentDiagramID := d.parentDiagramID.bind m
    diagramName := d.diagramName
    description := d.description
    encryptedData := d.encryptedData
    encryptedDataSignature := d.encryptedDataSignature }

/-- One node insert of step 4 (second pass): the diagram reference is read by
plain indexing, without an `ok`-check. -/
def restoreNode (m : IdMap) (n : NodeBackup) : RestoredNode :=
  { id := mapGetD m n.id
    diagramID := mapGetD m n.diagramID
    encryptedReadme := n.encryptedReadme
    encryptedReadmeSignature := n.encryptedReadmeSignature
    encryptedDict := n.encryptedDict
    encryptedDictSignature := n.encryptedDictSignature }

/-- One vault insert of step 5: the node reference is read by plain indexing,
without an `ok`-check; the id is storage-assigned. -/
def restoreVault (vid newProjectID : ObjectID) (m : IdMap)
    (v : VaultBackup) : RestoredVault :=
  { id := vid
    projectID := newProjectID
    nodeID := mapGetD m v.nodeID
    label := v.label
    type' := v.type'
    encryptedValue := v.encryptedValue
    encryptedValueSignature := v.encryptedValueSignature }

/-- The vault insert loop of step 5, consuming storage-assigned ids in order. -/
def restoreVaults (gen : Nat → ObjectID) (base : Nat)
    (newProjectID : ObjectID) (m : IdMap) :
    List VaultBackup → List RestoredVault
  | [] => []
  | v :: vs =>
    restoreVault (gen base) newProjectID m v ::
      restoreVaults gen (base + 1) newProjectID m vs

/-- One note insert of step 6 (second pass): the parent pointer is set only
when the looked-up id exists in the map. -/
def restoreNote (newProjectID : ObjectID) (m : IdMap)
    (n : NoteBackup) : RestoredNote :=
  { id := mapGetD m n.id
    projectID := newProjectID
    parentID := n.parentID.bind m
    type' := n.type'
    fileName := n.fileName
    icon := n.icon
    encryptedContent := n.encryptedContent
    encryptedContentSignature := n.encryptedContentSignature }

/-- Everything `BackupService.insertRestoredData` writes through the storage
collaborators. -/
structure RestoreResult where
  project : RestoredProject
  member : RestoredMember
  diagrams : List RestoredDiagram
  nodes : List RestoredNode
  vaults : List RestoredVault
  notes : List RestoredNote

/-- Go `BackupService.insertRestoredData`: two-pass id remapping and insertion.
All inserts succeed in this model (the storage collaborators are external);
`gen` supplies every freshly generated identifier in call order. -/
def insertRestoredData (gen : Nat → ObjectID) (userID : ObjectID)
    (p : BackupPayload) : RestoreResult :=
  let newProjectID := gen 0
  let m2 := idMapDiagrams gen p
  let m3 := idMapNodes gen p
  let m4 := idMapNotes gen p
  { project :=
      { id := newProjectID
        name := p.project.name
        description := p.project.description
        keyEpoch := p.project.keyEpoch }
    member :=
      { projectID := newProjectID
        userID := userID
        role := "owner"
        permissions := ownerPermissions
        publicKey := p.member.publicKey
        encryptedPrivateKey := p.member.encryptedPrivateKey
        keyrings := p.member.keyrings }
    diagrams := p.diagrams.map (restoreDiagram newProjectID m2)
    nodes := p.nodes.map (restoreNode m3)
    vaults := restoreVaults gen (1 + p.diagrams.length + p.nodes.length)
      newProjectID m3 p.vaults
    notes := p.notes.map (restoreNote newProjectID m4) }

/-- Every identifier string present anywhere in a payload (entity ids and
reference fields). -/
def payloadIDs (p : BackupPayload) : List String :=
  p.project.id ::
    (p.diagrams.map DiagramBackup.id ++
     p.diagrams.filterMap DiagramBackup.parentDiagramID ++
     p.nodes.map NodeBackup.id ++
     p.nodes.map NodeBackup.diagramID ++
     p.vaults.map VaultBackup.id ++
     p.vaults.map VaultBackup.nodeID ++
     p.notes.map NoteBackup.id ++
     p.notes.filterMap NoteBackup.parentID)

/-- The original id of every entity of a payload. -/
def payloadEntityIDs (p : BackupPayload) : List String :=
  p.project.id ::
    (p.diagrams.map DiagramBackup.id ++
     p.nodes.map NodeBackup.id ++
     p.vaults.map VaultBackup.id ++
     p.notes.map NoteBackup.id)

/-! ## A concrete instance of the primitive model

Used to instantiate the theorems at concrete inputs. The payload codec is
built from Mathlib's `Encodable` machinery, so the JSON round-trip law holds
by construction. -/

instance : Encodable Char :=
  Encodable.ofLeftInverse Char.toNat Char.ofNat Char.ofNat_toNat

instance : Encodable String :=
  Encodable.ofLeftInverse String.toList String.mk (fun s => by cases s; rfl)

instance : Encodable GoTime :=
  Encodable.ofLeftInverse GoTime.unixNano GoTime.mk (fun _ => rfl)

instance : Encodable MemberKeyringBackup :=
  Encodable.ofLeftInverse
    (fun k => (k.epoch, k.secretPassphrase, k.secretSigningPrivateKey,
      k.signingPublicKey))
    (fun t => ⟨t.1, t.2.1, t.2.2.1, t.2.2.2⟩) (fun _ => rfl)

instance : Encodable ProjectBackup :=
  Encodable.ofLeftInverse
    (fun x => (x.id, x.name, x.description, x.keyEpoch, x.createdAt,
      x.updatedAt))
    (fun t => ⟨t.1, t.2.1, t.2.2.1, t.2.2.2.1, t.2.2.2.2.1, t.2.2.2.2.2⟩)
    (fun _ => rfl)

instance : Encodable MemberBackup :=
  Encodable.ofLeftInverse
    (fun x => (x.publicKey, x.encryptedPrivateKey, x.keyrings))
    (fun t => ⟨t.1, t.2.1, t.2.2⟩) (fun _ => rfl)

instance : Encodable DiagramBackup :=
  Encodable.ofLeftInverse
    (fun x => (x.id, x.parentDiagramID, x.diagramName, x.description,
      x.encryptedData, x.encryptedDataSignature, x.createdAt, x.updatedAt))
    (fun t => ⟨t.1, t.2.1, t.2.2.1, t.2.2.2.1, t.2.2.2.2.1, t.2.2.2.2.2.1,
      t.2.2.2.2.2.2.1, t.2.2.2.2.2.2.2⟩)
    (fun _ => rfl)

instance : Encodable NodeBackup :=
  Encodable.ofLeftInverse
    (fun x => (x.id, x.diagramID, x.encryptedReadme,
      x.encryptedReadmeSignature, x.encryptedDict, x.encryptedDictSignature,
      x.createdAt, x.updatedAt))
    (fun t => ⟨t.1, t.2.1, t.2.2.1, t.2.2.2.1, t.2.2.2.2.1, t.2.2.2.2.2.1,
      t.2.2.2.2.2.2.1, t.2.2.2.2.2.2.2⟩)
    (fun _ => rfl)

instance : Encodable VaultBackup :=
  Encodable.ofLeftInverse
    (fun x => (x.id, x.nodeID, x.label, x.type', x.encryptedValue,
      x.encryptedValueSignature, x.createdAt, x.updatedAt))
    (fun t => ⟨t.1, t.2.1, t.2.2.1, t.2.2.2.1, t.2.2.2.2.1, t.2.2.2.2.2.1,
      t.2.2.2.2.2.2.1, t.2.2.2.2.2.2.2⟩)
    (fun _ => rfl)

instance : Encodable NoteBackup :=
  Encodable.ofLeftInverse
    (fun x => (x.id, x.parentID, x.type', x.fileName, x.icon,
      x.encryptedContent, x.encryptedContentSignature, x.createdAt,
      x.updatedAt))
    (fun t => ⟨t.1, t.2.1, t.2.2.1, t.2.2.2.1, t.2.2.2.2.1, t.2.2.2.2.2.1,
      t.2.2.2.2.2.2.1, t.2.2.2.2.2.2.2.1, t.2.2.2.2.2.2.2.2⟩)
    (fun _ => rfl)

instance : Encodable BackupPayload :=
  Encodable.ofLeftInverse
    (fun x => (x.version, x.createdAt, x.project, x.member, x.diagrams,
      x.nodes, x.vaults, x.notes))
    (fun t => ⟨t.1, t.2.1, t.2.2.1, t.2.2.2.1, t.2.2.2.2.1, t.2.2.2.2.2.1,
      t.2.2.2.2.2.2.1, t.2.2.2.2.2.2.2⟩)
    (fun _ => rfl)

/-- A concrete `CryptoModel` satisfying every primitive contract. -/
def witnessModel : CryptoModel :=
  { hmacSHA256 := fun pepper msg => pepper ++ msg
    argon2id := fun _ _ ps => List.replicate ps.keyLength 0
    encrypt := fun key _ pt => key ++ pt
    decrypt := fun ct key _ =>
      if ct.take key.length = key then some (ct.drop key.length) else none
    compress := id
    decompress := some
    jsonEncode := fun p => [Encodable.encode p]
    jsonDecode := fun b =>
      match b with
      | [n] => Encodable.decode n
      | _ => none
    normTime := id }

/-- Concrete service-level Argon2 parameters. -/
def spSample : ServiceArgon2Params :=
  { memory := 65536, iterations := 3, parallelism := 2,
    saltLength := 16, keyLength := 32 }

def projectSample : ProjectBackup :=
  { id := "aa", name := "My Project", description := "", keyEpoch := "1",
    createdAt := "2024-01-01T00:00:00Z", updatedAt := "2024-01-01T00:00:00Z" }

def memberSample : MemberBackup :=
  { publicKey := "pk", encryptedPrivateKey := "sk", keyrings := [] }

/-- A minimal payload (no entities). -/
def payloadSample : BackupPayload :=
  { version := 1, createdAt := { unixNano := 0 }, project := projectSample,
    member := memberSample, diagrams := [], nodes := [], vaults := [],
    notes := [] }

/-- A node whose `diagram_id` (`"zz"`) matches no entity in the payload. -/
def nodeDangling : NodeBackup :=
  { id := "cc", diagramID := "zz", encryptedReadme := "",
    encryptedReadmeSignature := "", encryptedDict := "",
    encryptedDictSignature := "", createdAt := "", updatedAt := "" }

/-- A vault whose `node_id` (`"yy"`) matches no entity in the payload. -/
def vaultDangling : VaultBackup :=
  { id := "vv", nodeID := "yy", label := "lbl", type' := "text",
    encryptedValue := none, encryptedValueSignature := none,
    createdAt := "", updatedAt := "" }

/-- A payload with a node and a vault whose references dangle: the node's
`diagram_id` and the vault's `node_id` match no entity in the payload. -/
def payloadDangling : BackupPayload :=
  { version := 1, createdAt := { unixNano := 0 }, project := projectSample,
    member := memberSample,
    diagrams := [],
    nodes := [nodeDangling],
    vaults := [vaultDangling],
    notes := [] }

/-- A diagram whose parent id is the sample project's own id (`"aa"`). -/
def diagramShared : DiagramBackup :=
  { id := "dd", parentDiagramID := some "aa",
    diagramName := "d", description := "", encryptedData := none,
    encryptedDataSignature := "", createdAt := "", updatedAt := "" }

/-- A root note of type `"note"` (not `"folder"`). -/
def noteShared1 : NoteBackup :=
  { id := "n1", parentID := none, type' := "note", fileName := "f",
    icon := "", encryptedContent := none,
    encryptedContentSignature := none, createdAt := "", updatedAt := "" }

/-- A note whose parent (`"n1"`) is a note of type `"note"`, not a folder. -/
def noteShared2 : NoteBackup :=
  { id := "n2", parentID := some "n1", type' := "note", fileName := "g",
    icon := "", encryptedContent := none,
    encryptedContentSignature := none, createdAt := "", updatedAt := "" }

/-- A note whose parent (`"dd"`) is a diagram id, not a note id. -/
def noteShared3 : NoteBackup :=
  { id := "n3", parentID := some "dd", type' := "note", fileName := "h",
    icon := "", encryptedContent := none,
    encryptedContentSignature := none, createdAt := "", updatedAt := "" }

/-- A payload exercising the shared id map: a diagram whose parent is the
project's own id, a note whose parent is a diagram id, and a note whose
parent is a non-folder note. -/
def payloadShared : BackupPayload :=
  { version := 1, createdAt := { unixNano := 0 }, project := projectSample,
    member := memberSample,
    diagrams := [diagramShared],
    nodes := [],
    vaults := [],
    notes := [noteShared1, noteShared2, noteShared3] }

/-- A well-formed payload: root diagram `d1`, child diagram `d2`, node `n1`
on `d2`, vault `v1` on `n1`, folder note `F` and child note `C`. -/
def diagramWF1 : DiagramBackup :=
  { id := "d1", parentDiagramID := none, diagramName := "root",
    description := "", encryptedData := none,
    encryptedDataSignature := "", createdAt := "", updatedAt := "" }

def diagramWF2 : DiagramBackup :=
  { id := "d2", parentDiagramID := some "d1", diagramName := "child",
    description := "", encryptedData := none,
    encryptedDataSignature := "", createdAt := "", updatedAt := "" }

def nodeWF : NodeBackup :=
  { id := "m1", diagramID := "d2", encryptedReadme := "",
    encryptedReadmeSignature := "", encryptedDict := "",
    encryptedDictSignature := "", createdAt := "", updatedAt := "" }

def vaultWF : VaultBackup :=
  { id := "v1", nodeID := "m1", label := "lbl", type' := "text",
    encryptedValue := none, encryptedValueSignature := none,
    createdAt := "", updatedAt := "" }

def noteWF1 : NoteBackup :=
  { id := "t1", parentID := none, type' := "folder", fileName := "F",
    icon := "", encryptedContent := none,
    encryptedContentSignature := none, createdAt := "", updatedAt := "" }

def noteWF2 : NoteBackup :=
  { id := "t2", parentID := some "t1", type' := "note", fileName := "C",
    icon := "", encryptedContent := none,
    encryptedContentSignature := none, createdAt := "", updatedAt := "" }

def payloadWellFormed : BackupPayload :=
  { version := 1, createdAt := { unixNano := 0 }, project := projectSample,
    member := memberSample,
    diagrams := [diagramWF1, diagramWF2],
    nodes := [nodeWF],
    vaults := [vaultWF],
    notes := [noteWF1, noteWF2] }

/-- A generator whose ids (25 or more characters of `x`) are distinct from
every two-character id used in the sample payloads. -/
def genSample : Nat → ObjectID :=
  fun k => { hex := String.mk (List.replicate (k + 25) 'x') }

def userSample : ObjectID := { hex := "bb" }

def pwSample : String := "CorrectHorse1"

def saltSample : List Nat := List.replicate 32 7

def nonceSample : List Nat := List.replicate 12 9

/-! ## Helper lemmas -/

theorem backupMagic_eq : BackupMagic = [73, 78, 70, 66, 75] := by decide

/-- Region arithmetic of a framed archive. -/
theorem archive_regions (nonce salt ct : List Nat)
    (hn : nonce.length = NonceSize) (hs : salt.length = SaltSize) :
    (BackupMagic ++ [BackupVersion] ++ nonce ++ salt ++ ct).length =
        archiveHeaderSize + ct.length ∧
    (BackupMagic ++ [BackupVersion] ++ nonce ++ salt ++ ct).take 5 =
        BackupMagic ∧
    (BackupMagic ++ [BackupVersion] ++ nonce ++ salt ++ ct).getD 5 0 =
        BackupVersion ∧
    archiveNonce (BackupMagic ++ [BackupVersion] ++ nonce ++ salt ++ ct) =
        nonce ∧
    archiveSalt (BackupMagic ++ [BackupVersion] ++ nonce ++ salt ++ ct) =
        salt ∧
    archiveCiphertext (BackupMagic ++ [BackupVersion] ++ nonce ++ salt ++ ct) =
        ct := by
  have hform : BackupMagic ++ [BackupVersion] ++ nonce ++ salt ++ ct =
      [73, 78, 70, 66, 75, 1] ++ (nonce ++ (salt ++ ct)) := by
    rw [backupMagic_eq]; simp [BackupVersion]
  have h6 : (BackupMagic ++ [BackupVersion] ++ nonce ++ salt ++ ct).drop 6 =
      nonce ++ (salt ++ ct) := by
    rw [hform, List.drop_left' (by decide)]
  refine ⟨?_, ?_, ?_, ?_, ?_, ?_⟩
  · rw [hform]
    simp [NonceSize, SaltSize, archiveHeaderSize, hn, hs]
    omega
  · rw [hform, backupMagic_eq]; rfl
  · rw [hform]; rfl
  · rw [archiveNonce, h6, List.take_left' hn]
  · rw [archiveSalt, ← List.drop_drop, h6, List.drop_left' hn,
      List.take_left' hs]
  · rw [archiveCiphertext,
      show archiveHeaderSize = 6 + NonceSize + SaltSize from rfl,
      ← List.drop_drop, ← List.drop_drop, h6, List.drop_left' hn,
      List.drop_left' hs]

theorem witnessModel_gcm : GCMRoundTrip witnessModel := by
  intro key nonce pt
  show (if (key ++ pt).take key.length = key then
      some ((key ++ pt).drop key.length) else none) = some pt
  rw [List.take_left, List.drop_left, if_pos rfl]

theorem witnessModel_compress : CompressRoundTrip witnessModel :=
  fun _ => rfl

theorem witnessModel_json : JsonRoundTrip witnessModel := by
  intro p
  show (Encodable.decode (Encodable.encode p) : Option BackupPayload) =
    some (normalizeCreatedAt witnessModel p)
  rw [Encodable.encodek]
  rfl

theorem witnessModel_argon2len : Argon2KeyLen witnessModel := by
  intro pw salt ps
  show (List.replicate ps.keyLength 0).length = ps.keyLength
  simp

/-! ## C3: archive binary layout -/

/-- C3: for every payload and password, the byte string produced by
`buildArchive` is exactly the 5 ASCII bytes `"INFBK"`, then one version byte
equal to 1, then the 12-byte nonce, then the 32-byte salt, then the AES-GCM
ciphertext; the header is exactly 50 bytes. -/
theorem archive_binary_layout (M : CryptoModel) (sp : ServiceArgon2Params)
    (p : BackupPayload) (pw : String) (salt nonce : List Nat)
    (hs : salt.length = SaltSize) (hn : nonce.length = NonceSize) :
    buildArchive M sp p pw salt nonce =
      BackupMagic ++ [BackupVersion] ++ nonce ++ salt ++
        M.encrypt (DeriveBackupKey M pw BackupPepper salt
          (some (toCryptoParams sp))) nonce (M.compress (M.jsonEncode p)) ∧
    BackupMagic = strBytes ("INFBK") ∧
    (buildArchive M sp p pw salt nonce).take archiveHeaderSize =
      BackupMagic ++ [BackupVersion] ++ nonce ++ salt ∧
    (BackupMagic ++ [BackupVersion] ++ nonce ++ salt).length =
      archiveHeaderSize ∧
    archiveHeaderSize = 50 ∧
    archiveCiphertext (buildArchive M sp p pw salt nonce) =
      M.encrypt (DeriveBackupKey M pw BackupPepper salt
        (some (toCryptoParams sp))) nonce (M.compress (M.jsonEncode p)) := by
  obtain ⟨h1, h2, h3, h4, h5, h6⟩ := archive_regions nonce salt
    (M.encrypt (DeriveBackupKey M pw BackupPepper salt
      (some (toCryptoParams sp))) nonce (M.compress (M.jsonEncode p))) hn hs
  have hhead : (BackupMagic ++ [BackupVersion] ++ nonce ++ salt).length =
      archiveHeaderSize := by
    rw [backupMagic_eq]
    simp [archiveHeaderSize, NonceSize, SaltSize, hn, hs]
    try omega
  have hassoc : (BackupMagic ++ [BackupVersion] ++ nonce ++ salt) ++
      M.encrypt (DeriveBackupKey M pw BackupPepper salt
        (some (toCryptoParams sp))) nonce (M.compress (M.jsonEncode p)) =
      BackupMagic ++ [BackupVersion] ++ nonce ++ salt ++
        M.encrypt (DeriveBackupKey M pw BackupPepper salt
          (some (toCryptoParams sp))) nonce (M.compress (M.jsonEncode p)) := by
    simp [List.append_assoc]
  refine ⟨rfl, rfl, ?_, hhead, rfl, h6⟩
  show (BackupMagic ++ [BackupVersion] ++ nonce ++ salt ++
      M.encrypt (DeriveBackupKey M pw BackupPepper salt
        (some (toCryptoParams sp))) nonce
        (M.compress (M.jsonEncode p))).take archiveHeaderSize =
    BackupMagic ++ [BackupVersion] ++ nonce ++ salt
  rw [← hassoc, List.take_left' hhead]

/-- Witness for C3 at concrete inputs. -/
theorem archive_binary_layout_witness :
    buildArchive witnessModel spSample payloadSample pwSample saltSample
        nonceSample =
      BackupMagic ++ [BackupVersion] ++ nonceSample ++ saltSample ++
        witnessModel.encrypt (DeriveBackupKey witnessModel pwSample
          BackupPepper saltSample (some (toCryptoParams spSample)))
          nonceSample
          (witnessModel.compress (witnessModel.jsonEncode payloadSample)) ∧
    (BackupMagic ++ [BackupVersion] ++ nonceSample ++ saltSample).length =
      archiveHeaderSize :=
  ⟨(archive_binary_layout witnessModel spSample payloadSample pwSample
      saltSample nonceSample (by decide) (by decide)).1,
   (archive_binary_layout witnessModel spSample payloadSample pwSample
      saltSample nonceSample (by decide) (by decide)).2.2.2.1⟩

/-! ## C1: round-trip -/

/-- C1: for every payload and password, parsing the archive built from them
with the same password succeeds and returns the payload, up to timestamp
normalization. -/
theorem backup_roundtrip (M : CryptoModel) (sp : ServiceArgon2Params)
    (p : BackupPayload) (pw : String) (salt nonce : List Nat)
    (hgcm : GCMRoundTrip M) (hcomp : CompressRoundTrip M)
    (hjson : JsonRoundTrip M)
    (hs : salt.length = SaltSize) (hn : nonce.length = NonceSize) :
    parseArchive M sp (buildArchive M sp p pw salt nonce) pw =
      Except.ok (normalizeCreatedAt M p) := by
  obtain ⟨h1, h2, h3, h4, h5, h6⟩ := archive_regions nonce salt
    (M.encrypt (DeriveBackupKey M pw BackupPepper salt
      (some (toCryptoParams sp))) nonce (M.compress (M.jsonEncode p))) hn hs
  show parseArchive M sp (BackupMagic ++ [BackupVersion] ++ nonce ++ salt ++
      M.encrypt (DeriveBackupKey M pw BackupPepper salt
        (some (toCryptoParams sp))) nonce
        (M.compress (M.jsonEncode p))) pw =
    Except.ok (normalizeCreatedAt M p)
  have hg : M.decrypt (M.encrypt (DeriveBackupKey M pw BackupPepper salt
      (some (toCryptoParams sp))) nonce (M.compress (M.jsonEncode p)))
      (DeriveBackupKey M pw BackupPepper salt (some (toCryptoParams sp)))
      nonce = some (M.compress (M.jsonEncode p)) := hgcm _ _ _
  have hc : M.decompress (M.compress (M.jsonEncode p)) =
      some (M.jsonEncode p) := hcomp _
  have hj : M.jsonDecode (M.jsonEncode p) =
      some (normalizeCreatedAt M p) := hjson p
  simp only [parseArchive, h1, h2, h3]
  rw [if_neg (by omega), if_neg (by simp), if_neg (by simp)]
  simp only [parseBody, h4, h5, h6, hg, hc, hj]

/-- Witness for C1 at concrete inputs. -/
theorem backup_roundtrip_witness :
    parseArchive witnessModel spSample
        (buildArchive witnessModel spSample payloadSample pwSample
          saltSample nonceSample) pwSample =
      Except.ok (normalizeCreatedAt witnessModel payloadSample) :=
  backup_roundtrip witnessModel spSample payloadSample pwSample saltSample
    nonceSample witnessModel_gcm witnessModel_compress witnessModel_json
    (by decide) (by decide)

/-! ## C2: parse error contract -/

/-- C2: `parseArchive` fails `invalidFormat` iff the input is shorter than 50
bytes or its first 5 bytes differ from the magic; otherwise it fails
`versionMismatch` iff the version byte (offset 5) is not the supported
version 1; otherwise an AES-GCM authentication failure yields
`decryptionFailed`. The checks are applied in that order. -/
theorem parse_error_contract (M : CryptoModel) (sp : ServiceArgon2Params)
    (data : List Nat) (pw : String) :
    (parseArchive M sp data pw = Except.error BackupError.invalidFormat ↔
      data.length < archiveHeaderSize ∨ data.take 5 ≠ BackupMagic) ∧
    (parseArchive M sp data pw = Except.error BackupError.versionMismatch ↔
      archiveHeaderSize ≤ data.length ∧ data.take 5 = BackupMagic ∧
        data.getD 5 0 ≠ BackupVersion) ∧
    (archiveHeaderSize ≤ data.length → data.take 5 = BackupMagic →
      data.getD 5 0 = BackupVersion →
      (parseArchive M sp data pw = Except.error BackupError.decryptionFailed ↔
        M.decrypt (archiveCiphertext data)
          (DeriveBackupKey M pw BackupPepper (archiveSalt data)
            (some (toCryptoParams sp)))
          (archiveNonce data) = none)) := by
  have hshort : ∀ h : data.length < archiveHeaderSize,
      parseArchive M sp data pw = Except.error BackupError.invalidFormat := by
    intro h
    simp only [parseArchive]
    rw [if_pos h]
  have hbadmagic : ∀ (h1 : ¬ data.length < archiveHeaderSize)
      (h2 : data.take 5 ≠ BackupMagic),
      parseArchive M sp data pw = Except.error BackupError.invalidFormat := by
    intro h1 h2
    simp only [parseArchive]
    rw [if_neg h1, if_pos h2]
  have hbadver : ∀ (h1 : ¬ data.length < archiveHeaderSize)
      (h2 : data.take 5 = BackupMagic) (h3 : data.getD 5 0 ≠ BackupVersion),
      parseArchive M sp data pw = Except.error BackupError.versionMismatch := by
    intro h1 h2 h3
    simp only [parseArchive]
    rw [if_neg h1, if_neg (not_not_intro h2), if_pos h3]
  have hbody : ∀ (h1 : ¬ data.length < archiveHeaderSize)
      (h2 : data.take 5 = BackupMagic) (h3 : data.getD 5 0 = BackupVersion),
      parseArchive M sp data pw = parseBody M sp data pw := by
    intro h1 h2 h3
    simp only [parseArchive]
    rw [if_neg h1, if_neg (not_not_intro h2), if_neg (not_not_intro h3)]
  have hb1 : parseBody M sp data pw ≠ Except.error BackupError.invalidFormat ∧
      parseBody M sp data pw ≠ Except.error BackupError.versionMismatch ∧
      (parseBody M sp data pw = Except.error BackupError.decryptionFailed ↔
        M.decrypt (archiveCiphertext data)
          (DeriveBackupKey M pw BackupPepper (archiveSalt data)
            (some (toCryptoParams sp))) (archiveNonce data) = none) := by
    simp only [parseBody]
    cases hdec : M.decrypt (archiveCiphertext data)
        (DeriveBackupKey M pw BackupPepper (archiveSalt data)
          (some (toCryptoParams sp))) (archiveNonce data) with
    | none => simp [hdec]
    | some compressed =>
      cases hdc : M.decompress compressed with
      | none => simp [hdec, hdc]
      | some jsonData =>
        cases hjd : M.jsonDecode jsonData with
        | none => simp [hdec, hdc, hjd]
        | some payload => simp [hdec, hdc, hjd]
  by_cases h1 : data.length < archiveHeaderSize
  · refine ⟨⟨fun _ => Or.inl h1, fun _ => hshort h1⟩, ?_, ?_⟩
    · rw [hshort h1]
      simp
      omega
    · intro hle
      exact absurd hle (by omega)
  · by_cases h2 : data.take 5 = BackupMagic
    · by_cases h3 : data.getD 5 0 = BackupVersion
      · rw [hbody h1 h2 h3]
        refine ⟨⟨fun h => absurd h hb1.1, ?_⟩,
          ⟨fun h => absurd h hb1.2.1, ?_⟩, fun _ _ _ => hb1.2.2⟩
        · rintro (h | h)
          · exact absurd h h1
          · exact absurd h2 h
        · rintro ⟨-, -, h⟩
          exact absurd h3 h
      · refine ⟨⟨fun h => ?_, ?_⟩, ⟨fun _ => ⟨by omega, h2, h3⟩,
          fun _ => hbadver h1 h2 h3⟩, fun _ _ hv => absurd hv h3⟩
        · rw [hbadver h1 h2 h3] at h
          exact absurd h (by simp)
        · rintro (h | h)
          · exact absurd h h1
          · exact absurd h2 h
    · refine ⟨⟨fun _ => Or.inr h2, fun _ => hbadmagic h1 h2⟩,
        ⟨fun h => ?_, fun h => absurd h.2.1 h2⟩,
        fun _ hm => absurd hm h2⟩
      rw [hbadmagic h1 h2] at h
      exact absurd h (by simp)

/-- Witness for C2: the empty input fails `invalidFormat`. -/
theorem parse_error_contract_witness :
    parseArchive witnessModel spSample [] pwSample =
      Except.error BackupError.invalidFormat :=
  (parse_error_contract witnessModel spSample [] pwSample).1.mpr
    (Or.inl (by decide))

/-! ## C4: key derivation -/

/-- C4: the encryption key used by both `buildArchive` and `parseArchive` is
Argon2id applied to HMAC-SHA256(pepper, password) with the given salt and the
service parameters (32-byte key length); the pepper is the fixed application
constant, and a parsed archive built with salt `salt` derives its key from
that same salt. -/
theorem backup_key_derivation (M : CryptoModel) (sp : ServiceArgon2Params)
    (pw : String) (salt : List Nat) (hkl : Argon2KeyLen M)
    (hs : salt.length = SaltSize) :
    DeriveBackupKey M pw BackupPepper salt (some (toCryptoParams sp)) =
      M.argon2id (M.hmacSHA256 BackupPepper (strBytes pw)) salt
        { memory := sp.memory, iterations := sp.iterations,
          parallelism := sp.parallelism, keyLength := 32 } ∧
    BackupPepper =
      strBytes ("infrantery:backup:v1:a9f2c8e1-4d7b-4f3a-b5e6-8c1d9e0f7a2b") ∧
    (DeriveBackupKey M pw BackupPepper salt
      (some (toCryptoParams sp))).length = 32 ∧
    (∀ p nonce, nonce.length = NonceSize →
      DeriveBackupKey M pw BackupPepper
          (archiveSalt (buildArchive M sp p pw salt nonce))
          (some (toCryptoParams sp)) =
        DeriveBackupKey M pw BackupPepper salt
          (some (toCryptoParams sp))) := by
  refine ⟨rfl, rfl, hkl _ _ _, fun p nonce hn => ?_⟩
  obtain ⟨_, _, _, _, h5, _⟩ := archive_regions nonce salt
    (M.encrypt (DeriveBackupKey M pw BackupPepper salt
      (some (toCryptoParams sp))) nonce (M.compress (M.jsonEncode p))) hn hs
  have h5' : archiveSalt (buildArchive M sp p pw salt nonce) = salt := h5
  rw [h5']

/-- Witness for C4 at concrete inputs. -/
theorem backup_key_derivation_witness :
    DeriveBackupKey witnessModel pwSample BackupPepper saltSample
        (some (toCryptoParams spSample)) =
      witnessModel.argon2id
        (witnessModel.hmacSHA256 BackupPepper (strBytes pwSample)) saltSample
        { memory := spSample.memory, iterations := spSample.iterations,
          parallelism := spSample.parallelism, keyLength := 32 } ∧
    (DeriveBackupKey witnessModel pwSample BackupPepper saltSample
      (some (toCryptoParams spSample))).length = 32 ∧
    DeriveBackupKey witnessModel pwSample BackupPepper
        (archiveSalt (buildArchive witnessModel spSample payloadSample
          pwSample saltSample nonceSample))
        (some (toCryptoParams spSample)) =
      DeriveBackupKey witnessModel pwSample BackupPepper saltSample
        (some (toCryptoParams spSample)) :=
  ⟨(backup_key_derivation witnessModel spSample pwSample saltSample
      witnessModel_argon2len (by decide)).1,
   (backup_key_derivation witnessModel spSample pwSample saltSample
      witnessModel_argon2len (by decide)).2.2.1,
   (backup_key_derivation witnessModel spSample pwSample saltSample
      witnessModel_argon2len (by decide)).2.2.2 payloadSample nonceSample
      (by decide)⟩

/-! ## C7: size cap -/

/-- C7: `RestoreBackup` reads at most `MaxBackupSize + 1` bytes of the input
stream; a stream of more than `MaxBackupSize` bytes fails `tooLarge` whatever
the cryptographic primitives do (so before any header parsing, key derivation
or decryption); a stream of at most `MaxBackupSize` bytes passes the size
check and is parsed in full. -/
theorem restore_size_cap (sp : ServiceArgon2Params) (pw : String)
    (stream : List Nat) :
    (readBackupData stream).length ≤ MaxBackupSize + 1 ∧
    (MaxBackupSize < stream.length →
      ∀ M : CryptoModel, restoreBackupParse M sp stream pw =
        Except.error BackupError.tooLarge) ∧
    (stream.length ≤ MaxBackupSize →
      ∀ M : CryptoModel, restoreBackupParse M sp stream pw =
        parseArchive M sp stream pw) := by
  refine ⟨?_, ?_, ?_⟩
  · simp [readBackupData]
  · intro hbig M
    have hlen : (readBackupData stream).length = MaxBackupSize + 1 := by
      simp [readBackupData]
      omega
    simp only [restoreBackupParse]
    rw [if_pos (by rw [hlen]; omega)]
  · intro hsmall M
    have hdata : readBackupData stream = stream :=
      List.take_of_length_le (by omega)
    simp only [restoreBackupParse, hdata]
    rw [if_neg (by omega)]

/-- Witness for C7: a stream one byte over the cap fails `tooLarge`. -/
theorem restore_size_cap_witness :
    restoreBackupParse witnessModel spSample
        (List.replicate (MaxBackupSize + 1) 0) pwSample =
      Except.error BackupError.tooLarge :=
  (restore_size_cap spSample pwSample
      (List.replicate (MaxBackupSize + 1) 0)).2.1
    (by simp) witnessModel

/-! ## C8: filename sanitization -/

theorem sanitizeCond_iff (c : Char) :
    (('a' ≤ c ∧ c ≤ 'z') ∨ ('A' ≤ c ∧ c ≤ 'Z') ∨ ('0' ≤ c ∧ c ≤ '9') ∨
      c = '-' ∨ c = '_') ↔
    (c.isAlpha || c.isDigit || decide (c = '-') || decide (c = '_')) = true := by
  simp [Char.isAlpha, Char.isUpper, Char.isLower, Char.isDigit, Char.le_def]
  tauto

theorem sanitize_foldl (l acc : List Char) :
    l.foldl sanitizeStep acc = acc ++ l.filterMap sanitizeRuneSpec := by
  induction l generalizing acc with
  | nil => simp
  | cons c cs ih =>
    rw [List.foldl_cons, ih]
    by_cases h1 : ('a' ≤ c ∧ c ≤ 'z') ∨ ('A' ≤ c ∧ c ≤ 'Z') ∨
        ('0' ≤ c ∧ c ≤ '9') ∨ c = '-' ∨ c = '_'
    · have hstep : sanitizeStep acc c = acc ++ [c] := by
        rw [sanitizeStep, if_pos h1]
      have hspec : sanitizeRuneSpec c = some c := by
        rw [sanitizeRuneSpec, if_pos ((sanitizeCond_iff c).mp h1)]
      rw [hstep]
      simp [List.filterMap_cons, hspec]
    · by_cases h2 : c = ' '
      · have hstep : sanitizeStep acc c = acc ++ ['_'] := by
          rw [sanitizeStep, if_neg h1, if_pos h2]
        have hspec : sanitizeRuneSpec c = some '_' := by
          rw [sanitizeRuneSpec,
            if_neg (fun hb => h1 ((sanitizeCond_iff c).mpr hb)), if_pos h2]
        rw [hstep]
        simp [List.filterMap_cons, hspec]
      · have hstep : sanitizeStep acc c = acc := by
          rw [sanitizeStep, if_neg h1, if_neg h2]
        have hspec : sanitizeRuneSpec c = none := by
          rw [sanitizeRuneSpec,
            if_neg (fun hb => h1 ((sanitizeCond_iff c).mpr hb)), if_neg h2]
        rw [hstep]
        simp [List.filterMap_cons, hspec]

/-- C8: `sanitizeFilename` keeps ASCII letters, digits, hyphen and
underscore, maps each space to an underscore, drops every other character,
and returns `"backup"` when the result is empty; in particular it maps
`"My Project! #1"` to `"My_Project_1"` and `"???"` to `"backup"`. -/
theorem sanitize_filename_correct :
    (∀ name, sanitizeFilename name = sanitizeFilenameSpec name) ∧
    sanitizeFilename ("My Project! #1") = "My_Project_1" ∧
    sanitizeFilename ("???") = "backup" := by
  refine ⟨fun name => ?_, by decide, by decide⟩
  simp only [sanitizeFilename, sanitizeFilenameSpec, sanitize_foldl,
    List.nil_append]

/-! ## Id-map lemmas -/

theorem bindAll_not_mem (m : IdMap) (ids : List String) (gen : Nat → ObjectID)
    (base : Nat) (k : String) (h : k ∉ ids) :
    bindAll m ids gen base k = m k := by
  induction ids generalizing m base with
  | nil => rfl
  | cons x xs ih =>
    have hx : k ≠ x := fun he => h (by rw [he]; exact List.mem_cons_self x xs)
    have hxs : k ∉ xs := fun hm => h (List.mem_cons_of_mem _ hm)
    show bindAll (idMapInsert m x (gen base)) xs gen (base + 1) k = m k
    rw [ih _ _ hxs]
    show (if k = x then some (gen base) else m k) = m k
    rw [if_neg hx]

theorem bindAll_mem (m : IdMap) (ids : List String) (gen : Nat → ObjectID)
    (base : Nat) (k : String) (h : k ∈ ids) :
    ∃ v, bindAll m ids gen base k = some v := by
  induction ids generalizing m base with
  | nil => cases h
  | cons x xs ih =>
    show ∃ v, bindAll (idMapInsert m x (gen base)) xs gen (base + 1) k = some v
    by_cases hxs : k ∈ xs
    · exact ih _ _ hxs
    · have hx : k = x := by
        rcases List.mem_cons.mp h with h' | h'
        · exact h'
        · exact absurd h' hxs
      refine ⟨gen base, ?_⟩
      rw [bindAll_not_mem _ _ _ _ _ hxs]
      show (if k = x then some (gen base) else m k) = some (gen base)
      rw [if_pos hx]

theorem bindAll_values (m : IdMap) (ids : List String) (gen : Nat → ObjectID)
    (base : Nat) (P : ObjectID → Prop)
    (hm : ∀ x v, m x = some v → P v) (hgen : ∀ j, P (gen j)) :
    ∀ x v, bindAll m ids gen base x = some v → P v := by
  induction ids generalizing m base with
  | nil => exact hm
  | cons y ys ih =>
    intro x v hx
    refine ih (idMapInsert m y (gen base)) (base + 1) ?_ x v hx
    intro a w haw
    by_cases hay : a = y
    · have : some (gen base) = some w := by
        rw [← haw]
        show some (gen base) = if a = y then some (gen base) else m a
        rw [if_pos hay]
      cases this
      exact hgen base
    · refine hm a w ?_
      rw [← haw]
      show m a = if a = y then some (gen base) else m a
      rw [if_neg hay]

theorem idMapProject_values (gen : Nat → ObjectID) (p : BackupPayload) :
    ∀ x v, idMapProject gen p x = some v → ∃ j, v = gen j := by
  intro x v hx
  by_cases hxp : x = p.project.id
  · have : some (gen 0) = some v := by
      rw [← hx]
      show some (gen 0) = if x = p.project.id then some (gen 0) else none
      rw [if_pos hxp]
    cases this
    exact ⟨0, rfl⟩
  · exfalso
    have : (none : Option ObjectID) = some v := by
      rw [← hx]
      show none = if x = p.project.id then some (gen 0) else none
      rw [if_neg hxp]
    cases this

theorem idMapDiagrams_values (gen : Nat → ObjectID) (p : BackupPayload) :
    ∀ x v, idMapDiagrams gen p x = some v → ∃ j, v = gen j :=
  bindAll_values _ _ _ _ _ (idMapProject_values gen p) (fun j => ⟨j, rfl⟩)

theorem idMapNodes_values (gen : Nat → ObjectID) (p : BackupPayload) :
    ∀ x v, idMapNodes gen p x = some v → ∃ j, v = gen j :=
  bindAll_values _ _ _ _ _ (idMapDiagrams_values gen p) (fun j => ⟨j, rfl⟩)

theorem idMapNotes_values (gen : Nat → ObjectID) (p : BackupPayload) :
    ∀ x v, idMapNotes gen p x = some v → ∃ j, v = gen j :=
  bindAll_values _ _ _ _ _ (idMapNodes_values gen p) (fun j => ⟨j, rfl⟩)

theorem idMapNodes_not_mem (gen : Nat → ObjectID) (p : BackupPayload)
    (k : String) (hk : k ≠ p.project.id)
    (hd : k ∉ p.diagrams.map DiagramBackup.id)
    (hn : k ∉ p.nodes.map NodeBackup.id) :
    idMapNodes gen p k = none := by
  rw [idMapNodes, bindAll_not_mem _ _ _ _ _ hn,
    idMapDiagrams, bindAll_not_mem _ _ _ _ _ hd]
  show (if k = p.project.id then some (gen 0) else none) = none
  rw [if_neg hk]

theorem restoreVaults_mem (gen : Nat → ObjectID) (pid : ObjectID) (m : IdMap)
    (vs : List VaultBackup) :
    ∀ base, ∀ rv ∈ restoreVaults gen base pid m vs,
      ∃ j v, v ∈ vs ∧ rv = restoreVault (gen j) pid m v := by
  induction vs with
  | nil => intro base rv hrv; cases hrv
  | cons w ws ih =>
    intro base rv hrv
    rcases List.mem_cons.mp hrv with h | h
    · exact ⟨base, w, List.mem_cons_self _ _, h⟩
    · obtain ⟨j, v, hv, he⟩ := ih (base + 1) rv h
      exact ⟨j, v, List.mem_cons_of_mem _ hv, he⟩

theorem restoreVaults_mem_of (gen : Nat → ObjectID) (pid : ObjectID)
    (m : IdMap) (vs : List VaultBackup) (v : VaultBackup) (h : v ∈ vs) :
    ∀ base, ∃ j, restoreVault (gen j) pid m v ∈ restoreVaults gen base pid m vs := by
  induction vs with
  | nil => cases h
  | cons w ws ih =>
    intro base
    rcases List.mem_cons.mp h with rfl | hmem
    · exact ⟨base, List.mem_cons_self _ _⟩
    · obtain ⟨j, hj⟩ := ih hmem (base + 1)
      exact ⟨j, List.mem_cons_of_mem _ hj⟩

/-! ## C6: full id regeneration -/

/-- C6: if the identifier generator only produces identifiers that do not
occur in the payload, then no identifier of any entity in the restored graph
(project, diagram, node, vault, note) equals any identifier present in the
original payload. -/
theorem full_id_regeneration (gen : Nat → ObjectID) (userID : ObjectID)
    (p : BackupPayload) (hfresh : ∀ k, (gen k).hex ∉ payloadIDs p) :
    (insertRestoredData gen userID p).project.id.hex ∉ payloadIDs p ∧
    (∀ rd ∈ (insertRestoredData gen userID p).diagrams,
      rd.id.hex ∉ payloadIDs p) ∧
    (∀ rn ∈ (insertRestoredData gen userID p).nodes,
      rn.id.hex ∉ payloadIDs p) ∧
    (∀ rv ∈ (insertRestoredData gen userID p).vaults,
      rv.id.hex ∉ payloadIDs p) ∧
    (∀ rt ∈ (insertRestoredData gen userID p).notes,
      rt.id.hex ∉ payloadIDs p) := by
  refine ⟨hfresh 0, ?_, ?_, ?_, ?_⟩
  · intro rd hrd
    have hres : (insertRestoredData gen userID p).diagrams =
        p.diagrams.map (restoreDiagram (gen 0) (idMapDiagrams gen p)) := rfl
    rw [hres] at hrd
    obtain ⟨d, hd, rfl⟩ := List.mem_map.mp hrd
    obtain ⟨v, hv⟩ := bindAll_mem (idMapProject gen p)
      (p.diagrams.map DiagramBackup.id) gen 1 d.id
      (List.mem_map_of_mem DiagramBackup.id hd)
    have hid : (restoreDiagram (gen 0) (idMapDiagrams gen p) d).id = v := by
      show mapGetD (idMapDiagrams gen p) d.id = v
      rw [mapGetD, idMapDiagrams, hv]
      rfl
    rw [hid]
    obtain ⟨j, rfl⟩ := idMapDiagrams_values gen p d.id v hv
    exact hfresh j
  · intro rn hrn
    have hres : (insertRestoredData gen userID p).nodes =
        p.nodes.map (restoreNode (idMapNodes gen p)) := rfl
    rw [hres] at hrn
    obtain ⟨n, hn, rfl⟩ := List.mem_map.mp hrn
    obtain ⟨v, hv⟩ := bindAll_mem (idMapDiagrams gen p)
      (p.nodes.map NodeBackup.id) gen (1 + p.diagrams.length) n.id
      (List.mem_map_of_mem NodeBackup.id hn)
    have hid : (restoreNode (idMapNodes gen p) n).id = v := by
      show mapGetD (idMapNodes gen p) n.id = v
      rw [mapGetD, idMapNodes, hv]
      rfl
    rw [hid]
    obtain ⟨j, rfl⟩ := idMapNodes_values gen p n.id v hv
    exact hfresh j
  · intro rv hrv
    have hres : (insertRestoredData gen userID p).vaults =
        restoreVaults gen (1 + p.diagrams.length + p.nodes.length) (gen 0)
          (idMapNodes gen p) p.vaults := rfl
    rw [hres] at hrv
    obtain ⟨j, v, _, rfl⟩ := restoreVaults_mem gen (gen 0)
      (idMapNodes gen p) p.vaults _ rv hrv
    exact hfresh j
  · intro rt hrt
    have hres : (insertRestoredData gen userID p).notes =
        p.notes.map (restoreNote (gen 0) (idMapNotes gen p)) := rfl
    rw [hres] at hrt
    obtain ⟨t, ht, rfl⟩ := List.mem_map.mp hrt
    obtain ⟨v, hv⟩ := bindAll_mem (idMapNodes gen p)
      (p.notes.map NoteBackup.id) gen
      (1 + p.diagrams.length + p.nodes.length + p.vaults.length) t.id
      (List.mem_map_of_mem NoteBackup.id ht)
    have hid : (restoreNote (gen 0) (idMapNotes gen p) t).id = v := by
      show mapGetD (idMapNotes gen p) t.id = v
      rw [mapGetD, idMapNotes, hv]
      rfl
    rw [hid]
    obtain ⟨j, rfl⟩ := idMapNotes_values gen p t.id v hv
    exact hfresh j

/-- Go `genSample` never produces an identifier of `payloadWellFormed`. -/
theorem genSample_fresh : ∀ k, (genSample k).hex ∉ payloadIDs payloadWellFormed := by
  intro k hmem
  have hlen : (genSample k).hex.length = k + 25 := by
    show (List.replicate (k + 25) ('x')).length = k + 25
    simp
  have hbound : ∀ s ∈ payloadIDs payloadWellFormed, s.length < 25 := by decide
  have := hbound _ hmem
  omega

/-- Witness for C6 at concrete inputs: the restored project's id, and the
restored counterpart of `diagramWF1`'s id, are fresh. -/
theorem full_id_regeneration_witness :
    (insertRestoredData genSample userSample payloadWellFormed).project.id.hex ∉
      payloadIDs payloadWellFormed ∧
    (restoreDiagram (genSample 0)
        (idMapDiagrams genSample payloadWellFormed) diagramWF1).id.hex ∉
      payloadIDs payloadWellFormed :=
  ⟨(full_id_regeneration genSample userSample payloadWellFormed
      genSample_fresh).1,
   (full_id_regeneration genSample userSample payloadWellFormed
      genSample_fresh).2.1
     (restoreDiagram (genSample 0)
       (idMapDiagrams genSample payloadWellFormed) diagramWF1)
     (List.mem_map_of_mem _ (by decide))⟩

/-! ## C9: dangling node/vault references become the zero ObjectID -/

/-- C9: a node whose `diagram_id`, or a vault whose `node_id`, is not the
original id of any entity in the payload is inserted with the all-zero
ObjectID as its reference; the restorer reports no error (it is total). -/
theorem dangling_refs_nil (gen : Nat → ObjectID) (userID : ObjectID)
    (p : BackupPayload) :
    (∀ n ∈ p.nodes, n.diagramID ∉ payloadEntityIDs p →
      restoreNode (idMapNodes gen p) n ∈
        (insertRestoredData gen userID p).nodes ∧
      (restoreNode (idMapNodes gen p) n).diagramID = NilObjectID) ∧
    (∀ v ∈ p.vaults, v.nodeID ∉ payloadEntityIDs p →
      ∃ rv ∈ (insertRestoredData gen userID p).vaults,
        rv.nodeID = NilObjectID ∧ rv.label = v.label ∧
        rv.type' = v.type') := by
  have hnil : ∀ k, k ∉ payloadEntityIDs p → idMapNodes gen p k = none := by
    intro k hmem
    refine idMapNodes_not_mem gen p k
      (fun he => hmem (by rw [he]; exact List.mem_cons_self _ _))
      (fun hm => hmem (List.mem_cons_of_mem _ (List.mem_append_left _
        (List.mem_append_left _ (List.mem_append_left _ hm)))))
      (fun hm => hmem (List.mem_cons_of_mem _ (List.mem_append_left _
        (List.mem_append_left _ (List.mem_append_right _ hm)))))
  constructor
  · intro n hn hmem
    have hres : (insertRestoredData gen userID p).nodes =
        p.nodes.map (restoreNode (idMapNodes gen p)) := rfl
    refine ⟨by rw [hres]; exact List.mem_map_of_mem _ hn, ?_⟩
    show mapGetD (idMapNodes gen p) n.diagramID = NilObjectID
    rw [mapGetD, hnil _ hmem]
    rfl
  · intro v hv hmem
    have hres : (insertRestoredData gen userID p).vaults =
        restoreVaults gen (1 + p.diagrams.length + p.nodes.length) (gen 0)
          (idMapNodes gen p) p.vaults := rfl
    obtain ⟨j, hj⟩ := restoreVaults_mem_of gen (gen 0) (idMapNodes gen p)
      p.vaults v hv (1 + p.diagrams.length + p.nodes.length)
    refine ⟨restoreVault (gen j) (gen 0) (idMapNodes gen p) v,
      by rw [hres]; exact hj, ?_, rfl, rfl⟩
    show mapGetD (idMapNodes gen p) v.nodeID = NilObjectID
    rw [mapGetD, hnil _ hmem]
    rfl

/-- Witness for C9 at concrete inputs. -/
theorem dangling_refs_nil_witness :
    ((restoreNode (idMapNodes genSample payloadDangling) nodeDangling ∈
        (insertRestoredData genSample userSample payloadDangling).nodes ∧
      (restoreNode (idMapNodes genSample payloadDangling)
        nodeDangling).diagramID = NilObjectID) ∧
    ∃ rv ∈ (insertRestoredData genSample userSample payloadDangling).vaults,
      rv.nodeID = NilObjectID ∧ rv.label = vaultDangling.label ∧
      rv.type' = vaultDangling.type') :=
  ⟨(dangling_refs_nil genSample userSample payloadDangling).1 nodeDangling
      (by decide) (by decide),
   (dangling_refs_nil genSample userSample payloadDangling).2 vaultDangling
      (by decide) (by decide)⟩

/-! ## C10: one shared id map, parent kinds never type-checked -/

/-- C10: parent references are resolved through the single old-id → new-id
map that also holds the project id, all diagram ids, all node ids and all
note ids: a diagram whose parent id is the payload project's original id is
restored with the new project id as its parent; a note whose parent id is a
diagram's or node's original id is restored with that entity's new id as its
parent (not null); and a note whose parent is a note that is not of type
`"folder"` still gets a non-null parent (no folder check is performed). -/
theorem shared_id_map (gen : Nat → ObjectID) (userID : ObjectID)
    (p : BackupPayload) :
    (∀ d ∈ p.diagrams, d.parentDiagramID = some p.project.id →
      p.project.id ∉ p.diagrams.map DiagramBackup.id →
      restoreDiagram (gen 0) (idMapDiagrams gen p) d ∈
        (insertRestoredData gen userID p).diagrams ∧
      (restoreDiagram (gen 0) (idMapDiagrams gen p) d).parentDiagramID =
        some (insertRestoredData gen userID p).project.id) ∧
    (∀ t ∈ p.notes, ∀ pid, t.parentID = some pid →
      pid ∈ p.diagrams.map DiagramBackup.id →
      pid ∉ p.nodes.map NodeBackup.id → pid ∉ p.notes.map NoteBackup.id →
      ∃ rd ∈ (insertRestoredData gen userID p).diagrams,
        (restoreNote (gen 0) (idMapNotes gen p) t).parentID = some rd.id) ∧
    (∀ t ∈ p.notes, ∀ pid, t.parentID = some pid →
      pid ∈ p.nodes.map NodeBackup.id → pid ∉ p.notes.map NoteBackup.id →
      ∃ rn ∈ (insertRestoredData gen userID p).nodes,
        (restoreNote (gen 0) (idMapNotes gen p) t).parentID = some rn.id) ∧
    (∀ t ∈ p.notes, ∀ pid, ∀ t' ∈ p.notes, t.parentID = some pid →
      t'.id = pid → t'.type' ≠ "folder" →
      (restoreNote (gen 0) (idMapNotes gen p) t).parentID ≠ none) := by
  refine ⟨?_, ?_, ?_, ?_⟩
  · intro d hd hpar hproj
    have hres : (insertRestoredData gen userID p).diagrams =
        p.diagrams.map (restoreDiagram (gen 0) (idMapDiagrams gen p)) := rfl
    refine ⟨by rw [hres]; exact List.mem_map_of_mem _ hd, ?_⟩
    show d.parentDiagramID.bind (idMapDiagrams gen p) =
      some (insertRestoredData gen userID p).project.id
    rw [hpar, Option.some_bind, idMapDiagrams,
      bindAll_not_mem _ _ _ _ _ hproj]
    show (if p.project.id = p.project.id then some (gen 0) else none) =
      some (insertRestoredData gen userID p).project.id
    rw [if_pos rfl]
    rfl
  · intro t ht pid hpar hpd hpn hpt
    have hres : (insertRestoredData gen userID p).diagrams =
        p.diagrams.map (restoreDiagram (gen 0) (idMapDiagrams gen p)) := rfl
    obtain ⟨d, hd, hdid⟩ := List.mem_map.mp hpd
    obtain ⟨v, hv⟩ := bindAll_mem (idMapProject gen p)
      (p.diagrams.map DiagramBackup.id) gen 1 pid hpd
    have hm2 : idMapDiagrams gen p pid = some v := hv
    have hm3 : idMapNodes gen p pid = some v := by
      rw [idMapNodes, bindAll_not_mem _ _ _ _ _ hpn]
      exact hm2
    have hm4 : idMapNotes gen p pid = some v := by
      rw [idMapNotes, bindAll_not_mem _ _ _ _ _ hpt]
      exact hm3
    refine ⟨restoreDiagram (gen 0) (idMapDiagrams gen p) d,
      by rw [hres]; exact List.mem_map_of_mem _ hd, ?_⟩
    have hdidv : (restoreDiagram (gen 0) (idMapDiagrams gen p) d).id = v := by
      show mapGetD (idMapDiagrams gen p) d.id = v
      rw [mapGetD, hdid, hm2]
      rfl
    rw [hdidv]
    show t.parentID.bind (idMapNotes gen p) = some v
    rw [hpar, Option.some_bind, hm4]
  · intro t ht pid hpar hpn hpt
    have hres : (insertRestoredData gen userID p).nodes =
        p.nodes.map (restoreNode (idMapNodes gen p)) := rfl
    obtain ⟨n, hn, hnid⟩ := List.mem_map.mp hpn
    obtain ⟨v, hv⟩ := bindAll_mem (idMapDiagrams gen p)
      (p.nodes.map NodeBackup.id) gen (1 + p.diagrams.length) pid hpn
    have hm3 : idMapNodes gen p pid = some v := hv
    have hm4 : idMapNotes gen p pid = some v := by
      rw [idMapNotes, bindAll_not_mem _ _ _ _ _ hpt]
      exact hm3
    refine ⟨restoreNode (idMapNodes gen p) n,
      by rw [hres]; exact List.mem_map_of_mem _ hn, ?_⟩
    have hnidv : (restoreNode (idMapNodes gen p) n).id = v := by
      show mapGetD (idMapNodes gen p) n.id = v
      rw [mapGetD, hnid, hm3]
      rfl
    rw [hnidv]
    show t.parentID.bind (idMapNotes gen p) = some v
    rw [hpar, Option.some_bind, hm4]
  · intro t ht pid t' ht' hpar hid htype
    have hpid : pid ∈ p.notes.map NoteBackup.id := by
      rw [← hid]
      exact List.mem_map_of_mem _ ht'
    obtain ⟨v, hv⟩ := bindAll_mem (idMapNodes gen p)
      (p.notes.map NoteBackup.id) gen
      (1 + p.diagrams.length + p.nodes.length + p.vaults.length) pid hpid
    show t.parentID.bind (idMapNotes gen p) ≠ none
    rw [hpar, Option.some_bind]
    have hm4 : idMapNotes gen p pid = some v := hv
    rw [hm4]
    exact Option.some_ne_none v

/-- Witness for C10 at concrete inputs. -/
theorem shared_id_map_witness :
    ((restoreDiagram (genSample 0) (idMapDiagrams genSample payloadShared)
        diagramShared).parentDiagramID =
      some (insertRestoredData genSample userSample payloadShared).project.id) ∧
    (∃ rd ∈ (insertRestoredData genSample userSample payloadShared).diagrams,
      (restoreNote (genSample 0) (idMapNotes genSample payloadShared)
        noteShared3).parentID = some rd.id) ∧
    ((restoreNote (genSample 0) (idMapNotes genSample payloadShared)
        noteShared2).parentID ≠ none) :=
  ⟨((shared_id_map genSample userSample payloadShared).1 diagramShared
      (by decide) (by decide) (by decide)).2,
   (shared_id_map genSample userSample payloadShared).2.1 noteShared3
      (by decide) "dd" (by decide) (by decide) (by decide) (by decide),
   (shared_id_map genSample userSample payloadShared).2.2.2 noteShared2
      (by decide) "n1" noteShared1 (by decide) (by decide) (by decide)
      (by decide)⟩

/-! ## C5: referential integrity post-restore -/

/-- C5, counterexample to the claim as stated: the restorer accepts
`payloadDangling` (it validates nothing), yet the restored node's diagram
reference denotes no inserted diagram. -/
theorem referential_integrity_cex :
    ¬ (∀ rn ∈ (insertRestoredData genSample userSample payloadDangling).nodes,
        ∃ rd ∈ (insertRestoredData genSample userSample
          payloadDangling).diagrams, rd.id = rn.diagramID) := by
  decide

/-- C5 as amended: for every payload whose references are well-formed (every
diagram parent id is a payload diagram id; every node's diagram id is a
payload diagram id, and diagram ids are not reused as node ids; every
vault's node id is a payload node id; every note parent id is the id of a
payload note of type `"folder"`), the restored graph satisfies referential
integrity: every diagram parent exists as a diagram of the same restored
project, every node's diagram reference denotes an inserted diagram, every
vault's node reference denotes an inserted node, and every note parent
references an inserted note of type `"folder"`. -/
theorem referential_integrity (gen : Nat → ObjectID) (userID : ObjectID)
    (p : BackupPayload)
    (hd : ∀ d ∈ p.diagrams, ∀ pid, d.parentDiagramID = some pid →
      pid ∈ p.diagrams.map DiagramBackup.id)
    (hnd : ∀ n ∈ p.nodes, n.diagramID ∈ p.diagrams.map DiagramBackup.id)
    (hdisj : ∀ x ∈ p.diagrams.map DiagramBackup.id,
      x ∉ p.nodes.map NodeBackup.id)
    (hvn : ∀ v ∈ p.vaults, v.nodeID ∈ p.nodes.map NodeBackup.id)
    (htn : ∀ t ∈ p.notes, ∀ pid, t.parentID = some pid →
      ∃ f ∈ p.notes, f.id = pid ∧ f.type' = "folder") :
    (∀ rd ∈ (insertRestoredData gen userID p).diagrams, ∀ q,
      rd.parentDiagramID = some q →
      ∃ rd' ∈ (insertRestoredData gen userID p).diagrams,
        rd'.id = q ∧ rd'.projectID = rd.projectID) ∧
    (∀ rn ∈ (insertRestoredData gen userID p).nodes,
      ∃ rd ∈ (insertRestoredData gen userID p).diagrams,
        rd.id = rn.diagramID) ∧
    (∀ rv ∈ (insertRestoredData gen userID p).vaults,
      ∃ rn ∈ (insertRestoredData gen userID p).nodes,
        rn.id = rv.nodeID) ∧
    (∀ rt ∈ (insertRestoredData gen userID p).notes, ∀ q,
      rt.parentID = some q →
      ∃ rt' ∈ (insertRestoredData gen userID p).notes,
        rt'.id = q ∧ rt'.type' = "folder") := by
  have hresd : (insertRestoredData gen userID p).diagrams =
      p.diagrams.map (restoreDiagram (gen 0) (idMapDiagrams gen p)) := rfl
  have hresn : (insertRestoredData gen userID p).nodes =
      p.nodes.map (restoreNode (idMapNodes gen p)) := rfl
  have hresv : (insertRestoredData gen userID p).vaults =
      restoreVaults gen (1 + p.diagrams.length + p.nodes.length) (gen 0)
        (idMapNodes gen p) p.vaults := rfl
  have hrest : (insertRestoredData gen userID p).notes =
      p.notes.map (restoreNote (gen 0) (idMapNotes gen p)) := rfl
  refine ⟨?_, ?_, ?_, ?_⟩
  · intro rd hrd q hq
    rw [hresd] at hrd
    obtain ⟨d, hdmem, rfl⟩ := List.mem_map.mp hrd
    have hq' : d.parentDiagramID.bind (idMapDiagrams gen p) = some q := hq
    rcases hpar : d.parentDiagramID with _ | pid
    · rw [hpar] at hq'
      cases hq'
    · rw [hpar, Option.some_bind] at hq'
      have hpd : pid ∈ p.diagrams.map DiagramBackup.id := hd d hdmem pid hpar
      obtain ⟨d', hd'mem, hd'id⟩ := List.mem_map.mp hpd
      refine ⟨restoreDiagram (gen 0) (idMapDiagrams gen p) d',
        by rw [hresd]; exact List.mem_map_of_mem _ hd'mem, ?_, rfl⟩
      show mapGetD (idMapDiagrams gen p) d'.id = q
      rw [mapGetD, hd'id, hq']
      rfl
  · intro rn hrn
    rw [hresn] at hrn
    obtain ⟨n, hnmem, rfl⟩ := List.mem_map.mp hrn
    have hpd : n.diagramID ∈ p.diagrams.map DiagramBackup.id := hnd n hnmem
    obtain ⟨d', hd'mem, hd'id⟩ := List.mem_map.mp hpd
    obtain ⟨v, hv⟩ := bindAll_mem (idMapProject gen p)
      (p.diagrams.map DiagramBackup.id) gen 1 n.diagramID hpd
    have hm2 : idMapDiagrams gen p n.diagramID = some v := hv
    have hm3 : idMapNodes gen p n.diagramID = some v := by
      rw [idMapNodes, bindAll_not_mem _ _ _ _ _ (hdisj _ hpd)]
      exact hm2
    refine ⟨restoreDiagram (gen 0) (idMapDiagrams gen p) d',
      by rw [hresd]; exact List.mem_map_of_mem _ hd'mem, ?_⟩
    show mapGetD (idMapDiagrams gen p) d'.id =
      (restoreNode (idMapNodes gen p) n).diagramID
    rw [mapGetD, hd'id, hm2]
    show v = mapGetD (idMapNodes gen p) n.diagramID
    rw [mapGetD, hm3]
    rfl
  · intro rv hrv
    rw [hresv] at hrv
    obtain ⟨j, v, hvmem, rfl⟩ := restoreVaults_mem gen (gen 0)
      (idMapNodes gen p) p.vaults _ rv hrv
    have hpn : v.nodeID ∈ p.nodes.map NodeBackup.id := hvn v hvmem
    obtain ⟨n', hn'mem, hn'id⟩ := List.mem_map.mp hpn
    obtain ⟨w, hw⟩ := bindAll_mem (idMapDiagrams gen p)
      (p.nodes.map NodeBackup.id) gen (1 + p.diagrams.length) v.nodeID hpn
    have hm3 : idMapNodes gen p v.nodeID = some w := hw
    refine ⟨restoreNode (idMapNodes gen p) n',
      by rw [hresn]; exact List.mem_map_of_mem _ hn'mem, ?_⟩
    show mapGetD (idMapNodes gen p) n'.id =
      (restoreVault (gen j) (gen 0) (idMapNodes gen p) v).nodeID
    rw [mapGetD, hn'id, hm3]
    show w = mapGetD (idMapNodes gen p) v.nodeID
    rw [mapGetD, hm3]
    rfl
  · intro rt hrt q hq
    rw [hrest] at hrt
    obtain ⟨t, htmem, rfl⟩ := List.mem_map.mp hrt
    have hq' : t.parentID.bind (idMapNotes gen p) = some q := hq
    rcases hpar : t.parentID with _ | pid
    · rw [hpar] at hq'
      cases hq'
    · rw [hpar, Option.some_bind] at hq'
      obtain ⟨f, hfmem, hfid, hftype⟩ := htn t htmem pid hpar
      refine ⟨restoreNote (gen 0) (idMapNotes gen p) f,
        by rw [hrest]; exact List.mem_map_of_mem _ hfmem, ?_, hftype⟩
      show mapGetD (idMapNotes gen p) f.id = q
      rw [mapGetD, hfid, hq']
      rfl

/-- Witness for the amended C5 at concrete inputs: the restored counterpart
of `nodeWF` has its diagram reference among the inserted diagrams. -/
theorem referential_integrity_witness :
    ∃ rd ∈ (insertRestoredData genSample userSample
        payloadWellFormed).diagrams,
      rd.id = (restoreNode (idMapNodes genSample payloadWellFormed)
        nodeWF).diagramID :=
  (referential_integrity genSample userSample payloadWellFormed
      (by decide) (by decide) (by decide) (by decide) (by decide)).2.1
    (restoreNode (idMapNodes genSample payloadWellFormed) nodeWF)
    (List.mem_map_of_mem _ (by decide))

end Infrantery
